import Mathlib

/-!
Verification of the geometry-to-STEP encoder of `step_generator.py`.

The source program works with Python floats; we embed coordinates as
rationals.  The only use of `math.sqrt` is the segment length, which the
program compares against `0` and then uses as a magnitude attribute and a
normalization divisor; `ratSqrt` below models `math.sqrt` on rationals:
it is exact on perfect squares and positive exactly when its argument is
positive, which is all the control flow of the program depends on.
-/

/-- Largest `j ≤ k` with `j * j ≤ n` (0 when none): helper for `isqrt`. -/
def isqrtAux (n : ℕ) : ℕ → ℕ
  | 0 => 0
  | k + 1 => if (k + 1) * (k + 1) ≤ n then k + 1 else isqrtAux n k

/-- Integer square root (structurally recursive so that it evaluates in
the kernel). -/
def isqrt (n : ℕ) : ℕ := isqrtAux n n

/-- Models `math.sqrt` on rationals: exact on perfect squares, and
`0 < ratSqrt q` iff `0 < q`. -/
def ratSqrt (q : ℚ) : ℚ :=
  (isqrt q.num.toNat : ℚ) / (isqrt q.den : ℚ)

/-- Embeds class `Point3D`: a 3D point with x, y, z coordinates. -/
structure Point3D where
  x : ℚ
  y : ℚ
  z : ℚ
deriving DecidableEq, Repr

/-- Embeds class `Line3D`: a 3D line defined by two points.
The source field `end` is named `endP` (`end` is a Lean keyword). -/
structure Line3D where
  start : Point3D
  endP : Point3D
deriving DecidableEq, Repr

/-- Embeds `Line3D.length`: Euclidean length of the line. -/
def Line3D.length (l : Line3D) : ℚ :=
  let dx := l.endP.x - l.start.x
  let dy := l.endP.y - l.start.y
  let dz := l.endP.z - l.start.z
  ratSqrt (dx * dx + dy * dy + dz * dz)

/-- Embeds class `B1Entity`: container for points and lines, with a name
(default "B1").  `add_point` / `add_line` append to the sequences. -/
structure B1Entity where
  points : List Point3D
  lines : List Line3D
  name : String := "B1"
deriving DecidableEq, Repr

/-- Embeds `B1Entity.add_point`. -/
def B1Entity.add_point (b1 : B1Entity) (p : Point3D) : B1Entity :=
  { b1 with points := b1.points ++ [p] }

/-- Embeds `B1Entity.add_line`. -/
def B1Entity.add_line (b1 : B1Entity) (l : Line3D) : B1Entity :=
  { b1 with lines := b1.lines ++ [l] }

/-- Embeds `B1Entity.get_bounding_box`: `(origin, origin)` for an empty
point list, otherwise componentwise min/max corners. -/
def B1Entity.get_bounding_box (b1 : B1Entity) : Point3D × Point3D :=
  match b1.points with
  | [] => (⟨0, 0, 0⟩, ⟨0, 0, 0⟩)
  | p :: ps =>
    (⟨ps.foldl (fun m q => min m q.x) p.x,
      ps.foldl (fun m q => min m q.y) p.y,
      ps.foldl (fun m q => min m q.z) p.z⟩,
     ⟨ps.foldl (fun m q => max m q.x) p.x,
      ps.foldl (fun m q => max m q.y) p.y,
      ps.foldl (fun m q => max m q.z) p.z⟩)

/-- The structured payload of one emitted STEP entity record.  The source
stores each record as the text `#id = TYPE(attributes);`; we keep the type
tag and attributes structurally, with cross-references as numeric ids. -/
inductive EntityAttrs where
  | cartesianPoint (p : Point3D)
  | direction (dx dy dz : ℚ)
  | vector (directionId : ℕ) (magnitude : ℚ)
  | line (startPointId vectorId : ℕ)
  | plane (originId normalDirId : ℕ)
  | block (cornerId : ℕ) (dx dy dz : ℚ)
deriving DecidableEq, Repr

/-- One record of the DATA section: identifier plus payload. -/
structure EntityRecord where
  id : ℕ
  attrs : EntityAttrs
deriving DecidableEq, Repr

/-- The ids a record references (always ids of earlier records). -/
def EntityAttrs.refs : EntityAttrs → List ℕ
  | .cartesianPoint _ => []
  | .direction _ _ _ => []
  | .vector d _ => [d]
  | .line p v => [p, v]
  | .plane o n => [o, n]
  | .block c _ _ _ => [c]

/-- Embeds the mutable state of class `STEPGenerator`: the entity id
counter and the accumulated record list. -/
structure STEPGenerator where
  entity_counter : ℕ
  entities : List EntityRecord
deriving DecidableEq, Repr

namespace STEPGenerator

/-- Embeds `STEPGenerator.__init__`. -/
def init : STEPGenerator := ⟨1, []⟩

/-- Embeds `STEPGenerator._next_id`: return the counter, post-increment. -/
def next_id (s : STEPGenerator) : ℕ × STEPGenerator :=
  (s.entity_counter, { s with entity_counter := s.entity_counter + 1 })

/-- Embeds `STEPGenerator._add_entity`: allocate an id and append the
record. -/
def add_entity (s : STEPGenerator) (a : EntityAttrs) : ℕ × STEPGenerator :=
  let (entity_id, s') := s.next_id
  (entity_id, { s' with entities := s'.entities ++ [⟨entity_id, a⟩] })

/-- Embeds `STEPGenerator._cartesian_point`. -/
def cartesian_point (s : STEPGenerator) (p : Point3D) : ℕ × STEPGenerator :=
  s.add_entity (.cartesianPoint p)

/-- Embeds `STEPGenerator._direction`. -/
def direction (s : STEPGenerator) (dx dy dz : ℚ) : ℕ × STEPGenerator :=
  s.add_entity (.direction dx dy dz)

/-- Embeds `STEPGenerator._vector`. -/
def vector (s : STEPGenerator) (direction_id : ℕ) (magnitude : ℚ) :
    ℕ × STEPGenerator :=
  s.add_entity (.vector direction_id magnitude)

/-- Embeds `STEPGenerator._line`. -/
def line (s : STEPGenerator) (start_point_id vector_id : ℕ) :
    ℕ × STEPGenerator :=
  s.add_entity (.line start_point_id vector_id)

/-- Embeds the body of the "Process points" loop of
`STEPGenerator.generate_step_file` (source lines 173-175): emit one
cartesian point record per point. -/
def process_point (s : STEPGenerator) (p : Point3D) : STEPGenerator :=
  (s.cartesian_point p).2

/-- Embeds the body of the "Process lines" loop of
`STEPGenerator.generate_step_file` (source lines 178-194): emit a point
for the segment start; when the magnitude is positive, also emit a
direction (normalized displacement), a vector (direction id plus
magnitude) and a line (start point id plus vector id). -/
def process_line (s : STEPGenerator) (l : Line3D) : STEPGenerator :=
  let (start_id, s1) := s.cartesian_point l.start
  let dx := l.endP.x - l.start.x
  let dy := l.endP.y - l.start.y
  let dz := l.endP.z - l.start.z
  let magnitude := l.length
  if 0 < magnitude then
    let (direction_id, s2) :=
      s1.direction (dx / magnitude) (dy / magnitude) (dz / magnitude)
    let (vector_id, s3) := s2.vector direction_id magnitude
    let (_, s4) := s3.line start_id vector_id
    s4
  else
    s1

/-- Embeds the "for line in b1.lines[:4]" loop of
`STEPGenerator._generate_surfaces_from_lines`: emit start and end points
of each line, accumulating their ids. -/
def surface_points :
    List Line3D → List ℕ × STEPGenerator → List ℕ × STEPGenerator
  | [], r => r
  | l :: ls, (acc, s) =>
    let (start_id, s1) := s.cartesian_point l.start
    let (end_id, s2) := s1.cartesian_point l.endP
    surface_points ls (acc ++ [start_id, end_id], s2)

/-- Embeds `STEPGenerator._generate_surfaces_from_lines`: when there are
at least 3 lines, emit the start/end points of the first 4 lines, then a
+Z direction and one plane referencing the first emitted point. -/
def generate_surfaces_from_lines (s : STEPGenerator) (b1 : B1Entity) :
    List ℕ × STEPGenerator :=
  if 3 ≤ b1.lines.length then
    let (point_ids, s1) := surface_points (b1.lines.take 4) ([], s)
    if 4 ≤ point_ids.length then
      let origin_id := point_ids.headD 0
      let (normal_dir_id, s2) := s1.direction 0 0 1
      let (plane_id, s3) := s2.add_entity (.plane origin_id normal_dir_id)
      ([plane_id], s3)
    else
      ([], s1)
  else
    ([], s)

/-- Embeds the `corner_ids` list comprehension of
`STEPGenerator._generate_solid_from_surfaces`: emit one point per corner,
accumulating the ids. -/
def corner_points :
    List Point3D → List ℕ × STEPGenerator → List ℕ × STEPGenerator
  | [], r => r
  | p :: ps, (acc, s) =>
    let (pid, s1) := s.cartesian_point p
    corner_points ps (acc ++ [pid], s1)

/-- Embeds `STEPGenerator._generate_solid_from_surfaces`: `none` when no
surface was produced, otherwise emit the 8 bounding-box corner points and
one block referencing the first corner and carrying the three extents. -/
def generate_solid_from_surfaces (s : STEPGenerator) (surface_ids : List ℕ)
    (b1 : B1Entity) : Option ℕ × STEPGenerator :=
  if surface_ids.isEmpty then
    (none, s)
  else
    let (min_pt, max_pt) := b1.get_bounding_box
    let corners : List Point3D :=
      [⟨min_pt.x, min_pt.y, min_pt.z⟩, ⟨max_pt.x, min_pt.y, min_pt.z⟩,
       ⟨max_pt.x, max_pt.y, min_pt.z⟩, ⟨min_pt.x, max_pt.y, min_pt.z⟩,
       ⟨min_pt.x, min_pt.y, max_pt.z⟩, ⟨max_pt.x, min_pt.y, max_pt.z⟩,
       ⟨max_pt.x, max_pt.y, max_pt.z⟩, ⟨min_pt.x, max_pt.y, max_pt.z⟩]
    let (corner_ids, s1) := corner_points corners ([], s)
    let (solid_id, s2) := s1.add_entity
      (.block (corner_ids.headD 0) (max_pt.x - min_pt.x)
        (max_pt.y - min_pt.y) (max_pt.z - min_pt.z))
    (some solid_id, s2)

/-- Embeds `STEPGenerator.generate_step_file` up to (not including) the
final file write: reset the counter and the record list, process points,
process lines, generate surfaces, generate the solid. -/
def generate_step_file (g : STEPGenerator) (b1 : B1Entity) : STEPGenerator :=
  let s0 : STEPGenerator := { g with entity_counter := 1, entities := [] }
  let s1 := b1.points.foldl process_point s0
  let s2 := b1.lines.foldl process_line s1
  let (surface_ids, s3) := s2.generate_surfaces_from_lines b1
  let (_, s4) := s3.generate_solid_from_surfaces surface_ids b1
  s4

end STEPGenerator

/-- The error raised when the output sink cannot be opened or written
(the spec's `WriteError`; in the source an `OSError` escaping the
`open(filename, "w")` context of `_write_step_file`). -/
inductive WriteError where
  | writeError (filename : String)
deriving DecidableEq, Repr

/-- Renders one record's payload as the attribute text of the source. -/
def EntityAttrs.render : EntityAttrs → String
  | .cartesianPoint p =>
    "CARTESIAN_POINT(\x27\x27,(" ++ toString p.x ++ "," ++ toString p.y ++
      "," ++ toString p.z ++ "))"
  | .direction dx dy dz =>
    "DIRECTION(\x27\x27,(" ++ toString dx ++ "," ++ toString dy ++ "," ++
      toString dz ++ "))"
  | .vector d m =>
    "VECTOR(\x27\x27,#" ++ toString d ++ "," ++ toString m ++ ")"
  | .line p v =>
    "LINE(\x27\x27,#" ++ toString p ++ ",#" ++ toString v ++ ")"
  | .plane o n =>
    "PLANE(\x27\x27,#" ++ toString o ++ ",#" ++ toString n ++ ")"
  | .block c dx dy dz =>
    "BLOCK(\x27\x27,#" ++ toString c ++ "," ++ toString dx ++ "," ++
      toString dy ++ "," ++ toString dz ++ ")"

/-- Renders one record as its output line `#id = TYPE(attributes);`. -/
def EntityRecord.render (r : EntityRecord) : String :=
  "#" ++ toString r.id ++ " = " ++ r.attrs.render ++ ";"

namespace STEPGenerator

/-- Embeds `STEPGenerator._write_step_file`.  The file sink is modelled
by `sinkOk`: when it is false the open/write raises (the spec's
`WriteError`) and no document is produced; otherwise the document is the
fixed header, every accumulated record in creation order, and the fixed
trailer. -/
def write_step_file (sinkOk : Bool) (filename timestamp : String)
    (s : STEPGenerator) : Except WriteError (List String) :=
  if sinkOk then
    .ok ([ "ISO-10303-21;", "HEADER;",
           "FILE_DESCRIPTION((\x27Generated STEP file for B1 entity\x27),\x272;1\x27);",
           "FILE_NAME(\x27" ++ filename ++ "\x27,\x27" ++ timestamp ++
             "\x27,(\x27STEP Generator\x27),(\x27Python Script\x27),\x27\x27,\x27\x27,\x27\x27);",
           "FILE_SCHEMA((\x27AUTOMOTIVE_DESIGN\x27));", "ENDSEC;", "",
           "DATA;" ] ++
         s.entities.map EntityRecord.render ++
         ["ENDSEC;", "END-ISO-10303-21;"])
  else
    .error (.writeError filename)

/-- Embeds `STEPGenerator.generate_step_file` including its final call to
`_write_step_file`: the whole `generate(set, sink)` operation of the
spec. -/
def generate_and_write (sinkOk : Bool) (g : STEPGenerator) (b1 : B1Entity)
    (filename timestamp : String) : Except WriteError (List String) :=
  write_step_file sinkOk filename timestamp (generate_step_file g b1)

/-- The whole-call state transform of `generate_step_file`: the generator
state is updated, and the geometry set is returned as the call leaves it.
No statement of the source mutates `b1` (its fields are only read), so
the returned set is the input set itself. -/
def generate_full (g : STEPGenerator) (b1 : B1Entity) :
    STEPGenerator × B1Entity :=
  (generate_step_file g b1, b1)

end STEPGenerator

/-- Discriminator: is the record a CARTESIAN_POINT? -/
def isCart : EntityAttrs → Bool
  | .cartesianPoint _ => true
  | _ => false

/-- Discriminator: is the record a DIRECTION? -/
def isDir : EntityAttrs → Bool
  | .direction _ _ _ => true
  | _ => false

/-- Discriminator: is the record a VECTOR? -/
def isVec : EntityAttrs → Bool
  | .vector _ _ => true
  | _ => false

/-- Discriminator: is the record a LINE? -/
def isLn : EntityAttrs → Bool
  | .line _ _ => true
  | _ => false

/-- Discriminator: is the record a PLANE? -/
def isPlane : EntityAttrs → Bool
  | .plane _ _ => true
  | _ => false

/-- Discriminator: is the record a BLOCK? -/
def isBlock : EntityAttrs → Bool
  | .block _ _ _ _ => true
  | _ => false

/-- Number of records in `rs` whose payload satisfies `p`. -/
def cnt (p : EntityAttrs → Bool) (rs : List EntityRecord) : ℕ :=
  rs.countP fun r => p r.attrs

/-- Number of records the "Process lines" loop emits for one segment:
4 when the magnitude is positive, otherwise only the start point. -/
def lineCost (l : Line3D) : ℕ :=
  if 0 < l.length then 4 else 1

/-- Number of segments of nonzero magnitude (exactly those for which the
"Process lines" loop also emits direction/vector/line records). -/
def posCount (ls : List Line3D) : ℕ :=
  (ls.filter fun l => decide (0 < l.length)).length

/-- The identifier invariant of a generator state: the counter is one
past the number of records, the record ids are exactly `1, 2, ...` in
order (strictly increasing from 1, no gaps, no reuse), and every
cross-reference points strictly below the referencing record's id. -/
def WellFormed (s : STEPGenerator) : Prop :=
  s.entity_counter = s.entities.length + 1 ∧
  s.entities.map EntityRecord.id = List.range' 1 s.entities.length ∧
  ∀ r ∈ s.entities, ∀ x ∈ r.attrs.refs, x < r.id

/-- The effect of one generation phase run from state `s` to state `s'`:
it appends the records `new`, advances the counter by their number, the
new ids are consecutive starting at the old counter value, and every
cross-reference of a new record stays strictly below that record's id. -/
def PhaseOut (s s' : STEPGenerator) (new : List EntityRecord) : Prop :=
  s'.entities = s.entities ++ new ∧
  s'.entity_counter = s.entity_counter + new.length ∧
  new.map EntityRecord.id = List.range' s.entity_counter new.length ∧
  ∀ r ∈ new, ∀ x ∈ r.attrs.refs, x < r.id

example : ratSqrt 100 = 10 := by norm_num [ratSqrt, isqrt, isqrtAux]
example : ratSqrt 0 = 0 := by norm_num [ratSqrt, isqrt, isqrtAux]
example : (Line3D.mk ⟨0, 0, 0⟩ ⟨10, 0, 0⟩).length = 10 := by
  norm_num [Line3D.length, ratSqrt, isqrt, isqrtAux]

theorem isqrtAux_sq_le (n : ℕ) : ∀ k, isqrtAux n k * isqrtAux n k ≤ n := by
  intro k
  induction k with
  | zero => simp [isqrtAux]
  | succ k ih =>
    simp only [isqrtAux]
    split
    · assumption
    · exact ih

theorem le_isqrtAux (n : ℕ) {j : ℕ} (hj : j * j ≤ n) :
    ∀ k, j ≤ k → j ≤ isqrtAux n k := by
  intro k
  induction k with
  | zero => intro h; simpa [isqrtAux] using h
  | succ k ih =>
    intro hjk
    simp only [isqrtAux]
    split
    · exact hjk
    · rename_i hc
      refine ih ?_
      rcases Nat.lt_or_ge j (k + 1) with h | h
      · omega
      · exact absurd (le_trans (Nat.mul_le_mul h h) hj) hc

theorem isqrt_sq (m : ℕ) : isqrt (m * m) = m := by
  refine Nat.le_antisymm ?_ ?_
  · have h := isqrtAux_sq_le (m * m) (m * m)
    by_contra hlt
    push_neg at hlt
    have h2 : (m + 1) * (m + 1) ≤ isqrt (m * m) * isqrt (m * m) :=
      Nat.mul_le_mul hlt hlt
    have := le_trans h2 h
    nlinarith
  · rcases Nat.eq_zero_or_pos m with rfl | hm
    · simp [isqrt, isqrtAux]
    · exact le_isqrtAux (m * m) (le_refl (m * m)) (m * m)
        (Nat.le_mul_of_pos_left m hm)

theorem isqrt_pos {n : ℕ} (hn : 0 < n) : 0 < isqrt n :=
  le_isqrtAux n (by simpa using hn) n hn

theorem ratSqrt_nonneg (q : ℚ) : 0 ≤ ratSqrt q := by
  unfold ratSqrt
  positivity

theorem ratSqrt_pos {q : ℚ} (hq : 0 < q) : 0 < ratSqrt q := by
  unfold ratSqrt
  apply div_pos
  · have h1 : 0 < q.num := Rat.num_pos.mpr hq
    have h2 : 0 < q.num.toNat := by omega
    exact_mod_cast isqrt_pos h2
  · exact_mod_cast isqrt_pos q.pos

theorem ratSqrt_zero : ratSqrt 0 = 0 := by
  simp [ratSqrt, isqrt, isqrtAux]

theorem length_eq_zero_of_eq {l : Line3D} (h : l.start = l.endP) :
    l.length = 0 := by
  simp [Line3D.length, h, ratSqrt_zero]

theorem length_nonneg (l : Line3D) : 0 ≤ l.length :=
  ratSqrt_nonneg _

theorem lineCost_of_ne_zero {l : Line3D} (h : l.length ≠ 0) : lineCost l = 4 := by
  have := lt_of_le_of_ne (length_nonneg l) (Ne.symm h)
  simp [lineCost, this]

theorem lineCost_of_eq_zero {l : Line3D} (h : l.length = 0) : lineCost l = 1 := by
  simp [lineCost, h]

theorem cnt_nil (p : EntityAttrs → Bool) : cnt p [] = 0 := by
  simp [cnt]

theorem cnt_append (p : EntityAttrs → Bool) (a b : List EntityRecord) :
    cnt p (a ++ b) = cnt p a + cnt p b := by
  simp [cnt, List.countP_append]

theorem phaseOut_refl (s : STEPGenerator) : PhaseOut s s [] :=
  ⟨by simp, by simp, by simp, by simp⟩

theorem phaseOut_comp {s s' s'' : STEPGenerator} {n1 n2 : List EntityRecord}
    (h1 : PhaseOut s s' n1) (h2 : PhaseOut s' s'' n2) :
    PhaseOut s s'' (n1 ++ n2) := by
  obtain ⟨e1, c1, i1, r1⟩ := h1
  obtain ⟨e2, c2, i2, r2⟩ := h2
  refine ⟨by rw [e2, e1, List.append_assoc],
    by rw [c2, c1, List.length_append]; omega, ?_, ?_⟩
  · rw [List.map_append, i1, i2, c1, List.length_append,
      Nat.add_comm n1.length n2.length]
    simpa using List.range'_append s.entity_counter n1.length n2.length 1
  · intro r hr x hx
    rcases List.mem_append.mp hr with h | h
    exacts [r1 r h x hx, r2 r h x hx]

theorem PhaseOut.wellFormed {s s' : STEPGenerator} {new : List EntityRecord}
    (h : PhaseOut s s' new) (hs : WellFormed s) : WellFormed s' := by
  obtain ⟨e, c, i, hnew⟩ := h
  obtain ⟨hc, hmap, hr⟩ := hs
  refine ⟨?_, ?_, ?_⟩
  · rw [c, e, List.length_append, hc]
    omega
  · rw [e, List.map_append, hmap, i, hc, List.length_append,
      Nat.add_comm s.entities.length new.length,
      Nat.add_comm s.entities.length 1]
    simpa using List.range'_append 1 s.entities.length new.length 1
  · intro r hrec x hx
    rw [e] at hrec
    rcases List.mem_append.mp hrec with h | h
    exacts [hr r h x hx, hnew r h x hx]

theorem wellFormed_init : WellFormed ⟨1, []⟩ :=
  ⟨rfl, rfl, by simp⟩

theorem add_entity_counter (s : STEPGenerator) (a : EntityAttrs) :
    (s.add_entity a).2.entity_counter = s.entity_counter + 1 := rfl

theorem add_entity_fst (s : STEPGenerator) (a : EntityAttrs) :
    (s.add_entity a).1 = s.entity_counter := rfl

theorem phaseOut_add (s : STEPGenerator) (a : EntityAttrs)
    (ha : ∀ x ∈ a.refs, x < s.entity_counter) :
    PhaseOut s (s.add_entity a).2 [⟨s.entity_counter, a⟩] := by
  refine ⟨rfl, rfl, rfl, ?_⟩
  intro r hr x hx
  rw [List.mem_singleton] at hr
  subst hr
  exact ha x hx

theorem phaseOut_process_point (s : STEPGenerator) (p : Point3D) :
    PhaseOut s (s.process_point p) [⟨s.entity_counter, .cartesianPoint p⟩] :=
  phaseOut_add s _ (by simp [EntityAttrs.refs])

theorem cnt_of_all_cart {rs : List EntityRecord}
    (h : ∀ r ∈ rs, ∃ p, r.attrs = EntityAttrs.cartesianPoint p) :
    cnt isCart rs = rs.length ∧ cnt isDir rs = 0 ∧ cnt isVec rs = 0 ∧
    cnt isLn rs = 0 ∧ cnt isPlane rs = 0 ∧ cnt isBlock rs = 0 := by
  induction rs with
  | nil => simp [cnt]
  | cons r rs ih =>
    obtain ⟨p, hp⟩ := h r (List.mem_cons_self r rs)
    obtain ⟨h1, h2, h3, h4, h5, h6⟩ :=
      ih fun r' hr' => h r' (List.mem_cons_of_mem r hr')
    simp only [cnt] at h1 h2 h3 h4 h5 h6
    refine ⟨?_, ?_, ?_, ?_, ?_, ?_⟩ <;>
      simp [cnt, List.countP_cons, hp, isCart, isDir, isVec, isLn, isPlane,
        isBlock, h1, h2, h3, h4, h5, h6] <;>
      (intro a ha
       obtain ⟨q, hq⟩ := h a (List.mem_cons_of_mem r ha)
       simp [hq])

theorem phaseOut_points_foldl (ps : List Point3D) (s : STEPGenerator) :
    ∃ new, PhaseOut s (ps.foldl STEPGenerator.process_point s) new ∧
      new.length = ps.length ∧
      ∀ r ∈ new, ∃ p, r.attrs = EntityAttrs.cartesianPoint p := by
  induction ps generalizing s with
  | nil => exact ⟨[], phaseOut_refl s, rfl, by simp⟩
  | cons p ps ih =>
    obtain ⟨new, hph, hlen, hall⟩ := ih (s.process_point p)
    refine ⟨⟨s.entity_counter, .cartesianPoint p⟩ :: new, ?_, by simp [hlen], ?_⟩
    · simpa using phaseOut_comp (phaseOut_process_point s p) hph
    · intro r hr
      rcases List.mem_cons.mp hr with rfl | h
      · exact ⟨p, rfl⟩
      · exact hall r h

theorem posCount_nil : posCount [] = 0 := rfl

theorem posCount_cons (l : Line3D) (ls : List Line3D) :
    posCount (l :: ls) = (if 0 < l.length then 1 else 0) + posCount ls := by
  by_cases h : 0 < l.length <;>
    simp [posCount, List.filter_cons, h] <;> omega

theorem process_line_pos_eq {l : Line3D} (h : 0 < l.length)
    (s : STEPGenerator) :
    s.process_line l =
      ⟨s.entity_counter + 4,
       s.entities ++
         [⟨s.entity_counter, .cartesianPoint l.start⟩,
          ⟨s.entity_counter + 1,
            .direction ((l.endP.x - l.start.x) / l.length)
              ((l.endP.y - l.start.y) / l.length)
              ((l.endP.z - l.start.z) / l.length)⟩,
          ⟨s.entity_counter + 2, .vector (s.entity_counter + 1) l.length⟩,
          ⟨s.entity_counter + 3,
            .line s.entity_counter (s.entity_counter + 2)⟩]⟩ := by
  simp only [STEPGenerator.process_line, STEPGenerator.cartesian_point,
    STEPGenerator.direction, STEPGenerator.vector, STEPGenerator.line,
    STEPGenerator.add_entity, STEPGenerator.next_id, if_pos h]
  simp [Nat.add_assoc]

theorem process_line_zero_eq {l : Line3D} (h : l.length = 0)
    (s : STEPGenerator) :
    s.process_line l =
      ⟨s.entity_counter + 1,
       s.entities ++ [⟨s.entity_counter, .cartesianPoint l.start⟩]⟩ := by
  simp only [STEPGenerator.process_line, STEPGenerator.cartesian_point,
    STEPGenerator.add_entity, STEPGenerator.next_id, h]
  simp

theorem phaseOut_process_line (s : STEPGenerator) (l : Line3D) :
    ∃ new, PhaseOut s (s.process_line l) new ∧
      new.length = lineCost l ∧
      cnt isCart new = 1 ∧
      cnt isDir new = (if 0 < l.length then 1 else 0) ∧
      cnt isVec new = (if 0 < l.length then 1 else 0) ∧
      cnt isLn new = (if 0 < l.length then 1 else 0) ∧
      cnt isPlane new = 0 ∧ cnt isBlock new = 0 := by
  by_cases h : 0 < l.length
  · refine ⟨[⟨s.entity_counter, .cartesianPoint l.start⟩,
      ⟨s.entity_counter + 1,
        .direction ((l.endP.x - l.start.x) / l.length)
          ((l.endP.y - l.start.y) / l.length)
          ((l.endP.z - l.start.z) / l.length)⟩,
      ⟨s.entity_counter + 2, .vector (s.entity_counter + 1) l.length⟩,
      ⟨s.entity_counter + 3, .line s.entity_counter (s.entity_counter + 2)⟩],
      ⟨?_, ?_, ?_, ?_⟩, ?_, ?_, ?_, ?_, ?_, ?_, ?_⟩
    · rw [process_line_pos_eq h]
    · rw [process_line_pos_eq h]
      simp
    · simp [List.range']
    · intro r hr x hx
      simp only [List.mem_cons, List.not_mem_nil, or_false] at hr
      rcases hr with rfl | rfl | rfl | rfl <;>
        simp [EntityAttrs.refs] at hx ⊢ <;>
        omega
    · simp [lineCost, h]
    · simp [cnt, List.countP_cons, isCart]
    · simp [cnt, List.countP_cons, isDir, h]
    · simp [cnt, List.countP_cons, isVec, h]
    · simp [cnt, List.countP_cons, isLn, h]
    · simp [cnt, List.countP_cons, isPlane]
    · simp [cnt, List.countP_cons, isBlock]
  · have h0 : l.length = 0 := le_antisymm (not_lt.mp h) (length_nonneg l)
    refine ⟨[⟨s.entity_counter, .cartesianPoint l.start⟩],
      ⟨?_, ?_, ?_, ?_⟩, ?_, ?_, ?_, ?_, ?_, ?_, ?_⟩
    · rw [process_line_zero_eq h0]
    · rw [process_line_zero_eq h0]
      simp
    · simp [List.range']
    · intro r hr x hx
      simp only [List.mem_singleton] at hr
      subst hr
      simp [EntityAttrs.refs] at hx
    · simp [lineCost, h]
    · simp [cnt, List.countP_cons, isCart]
    · simp [cnt, List.countP_cons, isDir, h]
    · simp [cnt, List.countP_cons, isVec, h]
    · simp [cnt, List.countP_cons, isLn, h]
    · simp [cnt, List.countP_cons, isPlane]
    · simp [cnt, List.countP_cons, isBlock]

theorem phaseOut_lines_foldl (ls : List Line3D) (s : STEPGenerator) :
    ∃ new, PhaseOut s (ls.foldl STEPGenerator.process_line s) new ∧
      new.length = (ls.map lineCost).sum ∧
      cnt isCart new = ls.length ∧
      cnt isDir new = posCount ls ∧
      cnt isVec new = posCount ls ∧
      cnt isLn new = posCount ls ∧
      cnt isPlane new = 0 ∧ cnt isBlock new = 0 := by
  induction ls generalizing s with
  | nil =>
    exact ⟨[], phaseOut_refl s, by simp, by simp [cnt],
      by simp [cnt, posCount_nil], by simp [cnt, posCount_nil],
      by simp [cnt, posCount_nil], by simp [cnt], by simp [cnt]⟩
  | cons l ls ih =>
    obtain ⟨n1, h1, hlen1, hc1, hd1, hv1, hl1, hp1, hb1⟩ :=
      phaseOut_process_line s l
    obtain ⟨n2, h2, hlen2, hc2, hd2, hv2, hl2, hp2, hb2⟩ :=
      ih (s.process_line l)
    refine ⟨n1 ++ n2, phaseOut_comp h1 h2, ?_, ?_, ?_, ?_, ?_, ?_, ?_⟩
    · simp [hlen1, hlen2]
    · rw [cnt_append, hc1, hc2]
      simp [Nat.add_comm]
    · rw [cnt_append, hd1, hd2, posCount_cons]
    · rw [cnt_append, hv1, hv2, posCount_cons]
    · rw [cnt_append, hl1, hl2, posCount_cons]
    · rw [cnt_append, hp1, hp2]
    · rw [cnt_append, hb1, hb2]

theorem headD_range' (c n : ℕ) (hn : 0 < n) : (List.range' c n).headD 0 = c := by
  cases n with
  | zero => omega
  | succ m => simp [List.range'_succ]

theorem phaseOut_surface_points (ls : List Line3D) (acc : List ℕ)
    (s : STEPGenerator) :
    ∃ new, PhaseOut s (STEPGenerator.surface_points ls (acc, s)).2 new ∧
      new.length = 2 * ls.length ∧
      (∀ r ∈ new, ∃ p, r.attrs = EntityAttrs.cartesianPoint p) ∧
      (STEPGenerator.surface_points ls (acc, s)).1 =
        acc ++ new.map EntityRecord.id := by
  induction ls generalizing acc s with
  | nil =>
    exact ⟨[], phaseOut_refl s, rfl, by simp,
      by simp [STEPGenerator.surface_points]⟩
  | cons l ls ih =>
    obtain ⟨new, hph, hlen, hall, hacc⟩ :=
      ih (acc ++ [s.entity_counter, s.entity_counter + 1])
        ((s.cartesian_point l.start).2.cartesian_point l.endP).2
    have hstep : STEPGenerator.surface_points (l :: ls) (acc, s) =
        STEPGenerator.surface_points ls
          (acc ++ [s.entity_counter, s.entity_counter + 1],
           ((s.cartesian_point l.start).2.cartesian_point l.endP).2) := rfl
    have a1 := phaseOut_add s (.cartesianPoint l.start)
      (by simp [EntityAttrs.refs])
    have a2 := phaseOut_add (s.cartesian_point l.start).2
      (.cartesianPoint l.endP) (by simp [EntityAttrs.refs])
    refine ⟨⟨s.entity_counter, .cartesianPoint l.start⟩ ::
        ⟨s.entity_counter + 1, .cartesianPoint l.endP⟩ :: new, ?_, ?_, ?_, ?_⟩
    · rw [hstep]
      exact phaseOut_comp (phaseOut_comp a1 a2) hph
    · simp only [List.length_cons, hlen]
      omega
    · intro r hr
      rcases List.mem_cons.mp hr with rfl | hr'
      · exact ⟨l.start, rfl⟩
      rcases List.mem_cons.mp hr' with rfl | hr''
      · exact ⟨l.endP, rfl⟩
      · exact hall r hr''
    · rw [hstep, hacc]
      simp

theorem phaseOut_corner_points (ps : List Point3D) (acc : List ℕ)
    (s : STEPGenerator) :
    ∃ new, PhaseOut s (STEPGenerator.corner_points ps (acc, s)).2 new ∧
      new.length = ps.length ∧
      (∀ r ∈ new, ∃ p, r.attrs = EntityAttrs.cartesianPoint p) ∧
      (STEPGenerator.corner_points ps (acc, s)).1 =
        acc ++ new.map EntityRecord.id := by
  induction ps generalizing acc s with
  | nil =>
    exact ⟨[], phaseOut_refl s, rfl, by simp,
      by simp [STEPGenerator.corner_points]⟩
  | cons p ps ih =>
    obtain ⟨new, hph, hlen, hall, hacc⟩ :=
      ih (acc ++ [s.entity_counter]) (s.cartesian_point p).2
    have hstep : STEPGenerator.corner_points (p :: ps) (acc, s) =
        STEPGenerator.corner_points ps
          (acc ++ [s.entity_counter], (s.cartesian_point p).2) := rfl
    have a1 := phaseOut_add s (.cartesianPoint p) (by simp [EntityAttrs.refs])
    refine ⟨⟨s.entity_counter, .cartesianPoint p⟩ :: new, ?_, ?_, ?_, ?_⟩
    · rw [hstep]
      exact phaseOut_comp a1 hph
    · simp [hlen]
    · intro r hr
      rcases List.mem_cons.mp hr with rfl | hr'
      · exact ⟨p, rfl⟩
      · exact hall r hr'
    · rw [hstep, hacc]
      simp

theorem surfaces_lt3 (s : STEPGenerator) (b1 : B1Entity)
    (h : b1.lines.length < 3) :
    s.generate_surfaces_from_lines b1 = ([], s) := by
  simp only [STEPGenerator.generate_surfaces_from_lines]
  rw [if_neg (by omega)]

theorem phaseOut_surfaces_ge3 (s : STEPGenerator) (b1 : B1Entity)
    (h3 : 3 ≤ b1.lines.length) :
    ∃ new pid s', s.generate_surfaces_from_lines b1 = ([pid], s') ∧
      PhaseOut s s' new ∧
      new.length = 2 * (b1.lines.take 4).length + 2 ∧
      cnt isCart new = 2 * (b1.lines.take 4).length ∧
      cnt isDir new = 1 ∧ cnt isPlane new = 1 ∧
      cnt isVec new = 0 ∧ cnt isLn new = 0 ∧ cnt isBlock new = 0 := by
  obtain ⟨spnew, hph, hlen, hall, hacc⟩ :=
    phaseOut_surface_points (b1.lines.take 4) [] s
  rcases hsp : STEPGenerator.surface_points (b1.lines.take 4) ([], s)
    with ⟨pis, s1⟩
  rw [hsp] at hph hacc
  replace hph : PhaseOut s s1 spnew := hph
  replace hacc : pis = spnew.map EntityRecord.id := by simpa using hacc
  have htl3 : 3 ≤ (b1.lines.take 4).length := by
    rw [List.length_take]
    omega
  have hplen : pis.length = 2 * (b1.lines.take 4).length := by
    rw [hacc]
    simp [hlen]
  have h4 : 4 ≤ pis.length := by omega
  have hids : spnew.map EntityRecord.id =
      List.range' s.entity_counter spnew.length := hph.2.2.1
  have hc1 : s1.entity_counter = s.entity_counter + spnew.length := hph.2.1
  have hhead : pis.headD 0 = s.entity_counter := by
    rw [hacc, hids]
    exact headD_range' _ _ (by omega)
  have a1 := phaseOut_add s1 (.direction 0 0 1) (by simp [EntityAttrs.refs])
  have a2 := phaseOut_add (s1.add_entity (.direction 0 0 1)).2
    (.plane (pis.headD 0) s1.entity_counter)
    (by
      intro x hx
      simp only [EntityAttrs.refs, List.mem_cons, List.not_mem_nil,
        or_false] at hx
      rcases hx with rfl | rfl
      · rw [add_entity_counter, hhead, hc1]
        omega
      · rw [add_entity_counter]
        omega)
  have heq : s.generate_surfaces_from_lines b1 =
      ([((s1.add_entity (.direction 0 0 1)).2.add_entity
          (.plane (pis.headD 0) s1.entity_counter)).1],
       ((s1.add_entity (.direction 0 0 1)).2.add_entity
          (.plane (pis.headD 0) s1.entity_counter)).2) := by
    simp only [STEPGenerator.generate_surfaces_from_lines]
    rw [if_pos h3, hsp]
    simp only [STEPGenerator.direction]
    rw [if_pos h4]
    rfl
  refine ⟨(spnew ++ [⟨s1.entity_counter, .direction 0 0 1⟩]) ++
      [⟨(s1.add_entity (.direction 0 0 1)).2.entity_counter,
        .plane (pis.headD 0) s1.entity_counter⟩],
    _, _, heq, phaseOut_comp (phaseOut_comp hph a1) a2, ?_, ?_, ?_, ?_, ?_, ?_, ?_⟩
  · simp [hlen]
  · rw [cnt_append, cnt_append, (cnt_of_all_cart hall).1, hlen]
    simp [cnt, isCart]
  · rw [cnt_append, cnt_append, (cnt_of_all_cart hall).2.1]
    simp [cnt, isDir]
  · rw [cnt_append, cnt_append, (cnt_of_all_cart hall).2.2.2.2.1]
    simp [cnt, isPlane]
  · rw [cnt_append, cnt_append, (cnt_of_all_cart hall).2.2.1]
    simp [cnt, isVec]
  · rw [cnt_append, cnt_append, (cnt_of_all_cart hall).2.2.2.1]
    simp [cnt, isLn]
  · rw [cnt_append, cnt_append, (cnt_of_all_cart hall).2.2.2.2.2]
    simp [cnt, isBlock]

theorem solid_empty (s : STEPGenerator) (b1 : B1Entity) :
    s.generate_solid_from_surfaces [] b1 = (none, s) := rfl

theorem phaseOut_solid_cons (s : STEPGenerator) (pid : ℕ) (rest : List ℕ)
    (b1 : B1Entity) :
    ∃ new sid s',
      s.generate_solid_from_surfaces (pid :: rest) b1 = (some sid, s') ∧
      PhaseOut s s' new ∧ new.length = 9 ∧
      cnt isCart new = 8 ∧ cnt isBlock new = 1 ∧ cnt isDir new = 0 ∧
      cnt isVec new = 0 ∧ cnt isLn new = 0 ∧ cnt isPlane new = 0 := by
  rcases hbb : b1.get_bounding_box with ⟨mn, mx⟩
  obtain ⟨cnew, hph, hlen, hall, hacc⟩ :=
    phaseOut_corner_points
      [⟨mn.x, mn.y, mn.z⟩, ⟨mx.x, mn.y, mn.z⟩, ⟨mx.x, mx.y, mn.z⟩,
       ⟨mn.x, mx.y, mn.z⟩, ⟨mn.x, mn.y, mx.z⟩, ⟨mx.x, mn.y, mx.z⟩,
       ⟨mx.x, mx.y, mx.z⟩, ⟨mn.x, mx.y, mx.z⟩] [] s
  rcases hcp : STEPGenerator.corner_points
      [⟨mn.x, mn.y, mn.z⟩, ⟨mx.x, mn.y, mn.z⟩, ⟨mx.x, mx.y, mn.z⟩,
       ⟨mn.x, mx.y, mn.z⟩, ⟨mn.x, mn.y, mx.z⟩, ⟨mx.x, mn.y, mx.z⟩,
       ⟨mx.x, mx.y, mx.z⟩, ⟨mn.x, mx.y, mx.z⟩] ([], s) with ⟨cis, s1⟩
  rw [hcp] at hph hacc
  replace hph : PhaseOut s s1 cnew := hph
  replace hacc : cis = cnew.map EntityRecord.id := by simpa using hacc
  have hids : cnew.map EntityRecord.id =
      List.range' s.entity_counter cnew.length := hph.2.2.1
  have hc1 : s1.entity_counter = s.entity_counter + cnew.length := hph.2.1
  have hlen8 : cnew.length = 8 := by simpa using hlen
  have hhead : cis.headD 0 = s.entity_counter := by
    rw [hacc, hids]
    exact headD_range' _ _ (by omega)
  have a1 := phaseOut_add s1
    (.block (cis.headD 0) (mx.x - mn.x) (mx.y - mn.y) (mx.z - mn.z))
    (by
      intro x hx
      simp only [EntityAttrs.refs, List.mem_singleton] at hx
      subst hx
      rw [hhead, hc1]
      omega)
  have heq : s.generate_solid_from_surfaces (pid :: rest) b1 =
      (some ((s1.add_entity (.block (cis.headD 0) (mx.x - mn.x)
          (mx.y - mn.y) (mx.z - mn.z))).1),
       (s1.add_entity (.block (cis.headD 0) (mx.x - mn.x)
          (mx.y - mn.y) (mx.z - mn.z))).2) := by
    simp only [STEPGenerator.generate_solid_from_surfaces]
    rw [if_neg (by simp)]
    rw [hbb]
    simp only [STEPGenerator.cartesian_point]
    rw [hcp]
  refine ⟨cnew ++ [⟨s1.entity_counter,
      .block (cis.headD 0) (mx.x - mn.x) (mx.y - mn.y) (mx.z - mn.z)⟩],
    _, _, heq, phaseOut_comp hph a1, ?_, ?_, ?_, ?_, ?_, ?_, ?_⟩
  · simp [hlen8]
  · rw [cnt_append, (cnt_of_all_cart hall).1, hlen8]
    simp [cnt, isCart]
  · rw [cnt_append, (cnt_of_all_cart hall).2.2.2.2.2]
    simp [cnt, isBlock]
  · rw [cnt_append, (cnt_of_all_cart hall).2.1]
    simp [cnt, isDir]
  · rw [cnt_append, (cnt_of_all_cart hall).2.2.1]
    simp [cnt, isVec]
  · rw [cnt_append, (cnt_of_all_cart hall).2.2.2.1]
    simp [cnt, isLn]
  · rw [cnt_append, (cnt_of_all_cart hall).2.2.2.2.1]
    simp [cnt, isPlane]

theorem generate_step_file_eq (g : STEPGenerator) (b1 : B1Entity) :
    g.generate_step_file b1 =
      (((b1.lines.foldl STEPGenerator.process_line
          (b1.points.foldl STEPGenerator.process_point
            ⟨1, []⟩)).generate_surfaces_from_lines b1).2.generate_solid_from_surfaces
        ((b1.lines.foldl STEPGenerator.process_line
          (b1.points.foldl STEPGenerator.process_point
            ⟨1, []⟩)).generate_surfaces_from_lines b1).1 b1).2 := rfl

theorem generate_master (g : STEPGenerator) (b1 : B1Entity) :
    ∃ new, PhaseOut ⟨1, []⟩ (g.generate_step_file b1) new ∧
      cnt isCart new = b1.points.length + b1.lines.length +
        (if 3 ≤ b1.lines.length then 2 * (b1.lines.take 4).length + 8 else 0) ∧
      cnt isDir new = posCount b1.lines +
        (if 3 ≤ b1.lines.length then 1 else 0) ∧
      cnt isVec new = posCount b1.lines ∧
      cnt isLn new = posCount b1.lines ∧
      cnt isPlane new = (if 3 ≤ b1.lines.length then 1 else 0) ∧
      cnt isBlock new = (if 3 ≤ b1.lines.length then 1 else 0) ∧
      new.length = b1.points.length + (b1.lines.map lineCost).sum +
        (if 3 ≤ b1.lines.length then 2 * (b1.lines.take 4).length + 11 else 0) := by
  obtain ⟨n1, h1, hlen1, hall1⟩ := phaseOut_points_foldl b1.points ⟨1, []⟩
  obtain ⟨hc1, hd1, hv1, hl1, hp1, hb1⟩ := cnt_of_all_cart hall1
  obtain ⟨n2, h2, hlen2, hc2, hd2, hv2, hl2, hp2, hb2⟩ :=
    phaseOut_lines_foldl b1.lines
      (b1.points.foldl STEPGenerator.process_point ⟨1, []⟩)
  by_cases h3 : 3 ≤ b1.lines.length
  · obtain ⟨n3, pid, s3, heq3, h3', hlen3, hc3, hd3, hpl3, hv3, hl3, hb3⟩ :=
      phaseOut_surfaces_ge3
        (b1.lines.foldl STEPGenerator.process_line
          (b1.points.foldl STEPGenerator.process_point ⟨1, []⟩)) b1 h3
    obtain ⟨n4, sid, s4, heq4, h4', hlen4, hc4, hb4, hd4, hv4, hl4, hpl4⟩ :=
      phaseOut_solid_cons s3 pid [] b1
    have hgen : g.generate_step_file b1 = s4 := by
      rw [generate_step_file_eq, heq3]
      rw [show (([pid], s3) : List ℕ × STEPGenerator).2 = s3 from rfl,
        show (([pid], s3) : List ℕ × STEPGenerator).1 = [pid] from rfl,
        heq4]
    refine ⟨((n1 ++ n2) ++ n3) ++ n4, ?_, ?_, ?_, ?_, ?_, ?_, ?_, ?_⟩
    · rw [hgen]
      exact phaseOut_comp (phaseOut_comp (phaseOut_comp h1 h2) h3') h4'
    · rw [cnt_append, cnt_append, cnt_append, hc1, hc2, hc3, hc4, hlen1,
        if_pos h3]
      omega
    · rw [cnt_append, cnt_append, cnt_append, hd1, hd2, hd3, hd4, if_pos h3]
      omega
    · rw [cnt_append, cnt_append, cnt_append, hv1, hv2, hv3, hv4]
      omega
    · rw [cnt_append, cnt_append, cnt_append, hl1, hl2, hl3, hl4]
      omega
    · rw [cnt_append, cnt_append, cnt_append, hp1, hp2, hpl3, hpl4, if_pos h3]
    · rw [cnt_append, cnt_append, cnt_append, hb1, hb2, hb3, hb4, if_pos h3]
    · simp only [List.length_append, hlen1, hlen2, hlen3, hlen4, if_pos h3]
      omega
  · have hlt := Nat.lt_of_not_le h3
    have heq3 := surfaces_lt3
      (b1.lines.foldl STEPGenerator.process_line
        (b1.points.foldl STEPGenerator.process_point ⟨1, []⟩)) b1 hlt
    have hgen : g.generate_step_file b1 =
        b1.lines.foldl STEPGenerator.process_line
          (b1.points.foldl STEPGenerator.process_point ⟨1, []⟩) := by
      rw [generate_step_file_eq, heq3]
      exact congrArg Prod.snd (solid_empty _ b1)
    refine ⟨n1 ++ n2, ?_, ?_, ?_, ?_, ?_, ?_, ?_, ?_⟩
    · rw [hgen]
      exact phaseOut_comp h1 h2
    · rw [cnt_append, hc1, hc2, hlen1, if_neg h3]
      omega
    · rw [cnt_append, hd1, hd2, if_neg h3]
      omega
    · rw [cnt_append, hv1, hv2]
      omega
    · rw [cnt_append, hl1, hl2]
      omega
    · rw [cnt_append, hp1, hp2, if_neg h3]
    · rw [cnt_append, hb1, hb2, if_neg h3]
    · simp only [List.length_append, hlen1, hlen2, if_neg h3]
      omega

theorem sum_lineCost_of_all_nonzero {ls : List Line3D}
    (h : ∀ l ∈ ls, l.length ≠ 0) :
    (ls.map lineCost).sum = 4 * ls.length := by
  induction ls with
  | nil => simp
  | cons l ls ih =>
    have hl := lineCost_of_ne_zero (h l (List.mem_cons_self l ls))
    have ih' := ih fun l' hl' => h l' (List.mem_cons_of_mem l hl')
    simp [hl, ih']
    omega

/-- C1: one call to `generate_step_file` assigns record identifiers
strictly increasing from 1 with no gaps or reuse (the id list is exactly
`[1, 2, ..., K]`), and every cross-reference in a record points to an id
strictly less than the record's own id (no forward references). -/
theorem C1_ids_wellformed (g : STEPGenerator) (b1 : B1Entity) :
    (g.generate_step_file b1).entities.map EntityRecord.id =
      List.range' 1 (g.generate_step_file b1).entities.length ∧
    ∀ r ∈ (g.generate_step_file b1).entities,
      ∀ x ∈ r.attrs.refs, x < r.id := by
  obtain ⟨new, hph, -⟩ := generate_master g b1
  have hwf := hph.wellFormed wellFormed_init
  exact ⟨hwf.2.1, hwf.2.2⟩

/-- C2: a geometry set with fewer than 3 segments yields zero PLANE and
zero BLOCK records; with 3 or more segments, exactly one of each,
regardless of how large the segment count is. -/
theorem C2_plane_block_threshold (g : STEPGenerator) (b1 : B1Entity) :
    (b1.lines.length < 3 →
      cnt isPlane (g.generate_step_file b1).entities = 0 ∧
      cnt isBlock (g.generate_step_file b1).entities = 0) ∧
    (3 ≤ b1.lines.length →
      cnt isPlane (g.generate_step_file b1).entities = 1 ∧
      cnt isBlock (g.generate_step_file b1).entities = 1) := by
  obtain ⟨new, hph, -, -, -, -, hpl, hbl, -⟩ := generate_master g b1
  have hent : (g.generate_step_file b1).entities = new := by
    simpa using hph.1
  constructor
  · intro h
    have hn : ¬ 3 ≤ b1.lines.length := by omega
    rw [hent, hpl, hbl]
    simp [hn]
  · intro h
    rw [hent, hpl, hbl]
    simp [h]

/-- Witness for C2 at two concrete inputs: one segment (no plane/block)
and three segments (exactly one of each). -/
theorem C2_plane_block_threshold_witness :
    (cnt isPlane (STEPGenerator.generate_step_file ⟨1, []⟩
        ⟨[], [⟨⟨0, 0, 0⟩, ⟨1, 0, 0⟩⟩], "B1"⟩).entities = 0 ∧
      cnt isBlock (STEPGenerator.generate_step_file ⟨1, []⟩
        ⟨[], [⟨⟨0, 0, 0⟩, ⟨1, 0, 0⟩⟩], "B1"⟩).entities = 0) ∧
    (cnt isPlane (STEPGenerator.generate_step_file ⟨1, []⟩
        ⟨[], [⟨⟨0, 0, 0⟩, ⟨1, 0, 0⟩⟩, ⟨⟨0, 0, 0⟩, ⟨0, 1, 0⟩⟩,
              ⟨⟨0, 0, 0⟩, ⟨0, 0, 1⟩⟩], "B1"⟩).entities = 1 ∧
      cnt isBlock (STEPGenerator.generate_step_file ⟨1, []⟩
        ⟨[], [⟨⟨0, 0, 0⟩, ⟨1, 0, 0⟩⟩, ⟨⟨0, 0, 0⟩, ⟨0, 1, 0⟩⟩,
              ⟨⟨0, 0, 0⟩, ⟨0, 0, 1⟩⟩], "B1"⟩).entities = 1) :=
  ⟨(C2_plane_block_threshold ⟨1, []⟩ _).1 (by decide),
   (C2_plane_block_threshold ⟨1, []⟩ _).2 (by decide)⟩

/-- C4: a segment whose start equals its end contributes exactly one
CARTESIAN_POINT record (its start) and no DIRECTION, VECTOR or LINE
record; the loop body is total, so no error arises. -/
theorem C4_degenerate_segment (s : STEPGenerator) (l : Line3D)
    (h : l.start = l.endP) :
    s.process_line l =
      ⟨s.entity_counter + 1,
       s.entities ++ [⟨s.entity_counter, .cartesianPoint l.start⟩]⟩ :=
  process_line_zero_eq (length_eq_zero_of_eq h) s

/-- Witness for C4 on the degenerate segment (1,2,3)-(1,2,3). -/
theorem C4_degenerate_segment_witness :
    STEPGenerator.process_line ⟨1, []⟩ ⟨⟨1, 2, 3⟩, ⟨1, 2, 3⟩⟩ =
      ⟨2, [⟨1, .cartesianPoint ⟨1, 2, 3⟩⟩]⟩ := by
  have h := C4_degenerate_segment ⟨1, []⟩ ⟨⟨1, 2, 3⟩, ⟨1, 2, 3⟩⟩ rfl
  simpa using h

/-- C5: with P points and S segments, all of nonzero length, the point
and segment processing steps (steps 2-3 of `generate_step_file`) emit at
least P + 3*S records (in fact P + 4*S). -/
theorem C5_min_record_count (b1 : B1Entity)
    (h : ∀ l ∈ b1.lines, l.length ≠ 0) :
    b1.points.length + 3 * b1.lines.length ≤
      (b1.lines.foldl STEPGenerator.process_line
        (b1.points.foldl STEPGenerator.process_point
          ⟨1, []⟩)).entities.length := by
  obtain ⟨n1, h1, hlen1, -⟩ := phaseOut_points_foldl b1.points ⟨1, []⟩
  obtain ⟨n2, h2, hlen2, -⟩ := phaseOut_lines_foldl b1.lines
    (b1.points.foldl STEPGenerator.process_point ⟨1, []⟩)
  have hent := (phaseOut_comp h1 h2).1
  have hsum := sum_lineCost_of_all_nonzero h
  rw [hent]
  simp only [List.nil_append, List.length_append, hlen1, hlen2, hsum]
  omega

/-- Witness for C5: one point and one segment of length 10 give at least
1 + 3 records. -/
theorem C5_min_record_count_witness :
    1 + 3 * 1 ≤
      (([⟨⟨0, 0, 0⟩, ⟨10, 0, 0⟩⟩] : List Line3D).foldl
        STEPGenerator.process_line
        (([⟨0, 0, 0⟩] : List Point3D).foldl STEPGenerator.process_point
          ⟨1, []⟩)).entities.length := by
  have h := C5_min_record_count ⟨[⟨0, 0, 0⟩], [⟨⟨0, 0, 0⟩, ⟨10, 0, 0⟩⟩], "B1"⟩
    (by
      intro l hl
      rw [List.mem_singleton] at hl
      subst hl
      norm_num [Line3D.length, ratSqrt, isqrt, isqrtAux])
  simpa using h

/-- C6: the bounding box of a set with no points is (origin, origin);
the bounding box of a set with exactly one point p is (p, p). -/
theorem C6_bounding_box_small (b1 b2 : B1Entity) (p : Point3D)
    (h1 : b1.points = []) (h2 : b2.points = [p]) :
    b1.get_bounding_box = (⟨0, 0, 0⟩, ⟨0, 0, 0⟩) ∧
    b2.get_bounding_box = (p, p) := by
  constructor
  · rcases b1 with ⟨pts, ls, n⟩
    simp only at h1
    subst h1
    rfl
  · rcases b2 with ⟨pts, ls, n⟩
    simp only at h2
    subst h2
    rfl

/-- Witness for C6 at an empty set and the singleton set {(5,6,7)}. -/
theorem C6_bounding_box_small_witness :
    (B1Entity.mk [] [] "B1").get_bounding_box =
      (⟨0, 0, 0⟩, ⟨0, 0, 0⟩) ∧
    (B1Entity.mk [⟨5, 6, 7⟩] [] "B1").get_bounding_box =
      (⟨5, 6, 7⟩, ⟨5, 6, 7⟩) :=
  C6_bounding_box_small ⟨[], [], "B1"⟩ ⟨[⟨5, 6, 7⟩], [], "B1"⟩ ⟨5, 6, 7⟩ rfl rfl

/-- C8: when the sink cannot be opened or written, `generate` fails with
a WriteError naming the file; with a writable sink it returns a document
(the result type `Except WriteError _` and totality of the generator rule
out any other error for well-formed input). -/
theorem C8_write_error (g : STEPGenerator) (b1 : B1Entity)
    (fn ts : String) :
    STEPGenerator.generate_and_write false g b1 fn ts =
      .error (.writeError fn) ∧
    ∃ outLines,
      STEPGenerator.generate_and_write true g b1 fn ts = .ok outLines :=
  ⟨rfl, _, rfl⟩

/-- C10: `generate_step_file` never mutates its input geometry set: the
whole-call state transform returns the set unchanged (the source reads
`b1` but never assigns to it). -/
theorem C10_no_mutation (g : STEPGenerator) (b1 : B1Entity) :
    (STEPGenerator.generate_full g b1).2 = b1 := rfl

/-- C3: on the set with one point (0,0,0) and one segment
(0,0,0)-(10,0,0), generation emits exactly the 5 records: point #1
(0,0,0), point #2 (0,0,0) (segment start), direction #3 (1,0,0), vector
#4 referencing #3 with magnitude 10, line #5 referencing #2 and #4; no
plane and no block. -/
theorem C3_concrete_single_segment :
    (STEPGenerator.generate_step_file ⟨1, []⟩
      ⟨[⟨0, 0, 0⟩], [⟨⟨0, 0, 0⟩, ⟨10, 0, 0⟩⟩], "B1"⟩).entities =
      [⟨1, .cartesianPoint ⟨0, 0, 0⟩⟩, ⟨2, .cartesianPoint ⟨0, 0, 0⟩⟩,
       ⟨3, .direction 1 0 0⟩, ⟨4, .vector 3 10⟩, ⟨5, .line 2 4⟩] := by
  norm_num [generate_step_file_eq, STEPGenerator.process_point,
    STEPGenerator.process_line, STEPGenerator.generate_surfaces_from_lines,
    STEPGenerator.generate_solid_from_surfaces,
    STEPGenerator.cartesian_point, STEPGenerator.direction,
    STEPGenerator.vector, STEPGenerator.line, STEPGenerator.add_entity,
    STEPGenerator.next_id, Line3D.length, ratSqrt, isqrt, isqrtAux]

/-- C7: generation is deterministic in the entity records: two calls on
sets with identical point and segment sequences (from any two generator
states, hence also a repeated call on the same instance) produce the
same record list, because each call resets the counter and record
list. -/
theorem C7_deterministic (g1 g2 : STEPGenerator) (b1 b2 : B1Entity)
    (hp : b1.points = b2.points) (hl : b1.lines = b2.lines) :
    (g1.generate_step_file b1).entities =
      (g2.generate_step_file b2).entities := by
  rcases b1 with ⟨ps1, ls1, n1⟩
  rcases b2 with ⟨ps2, ls2, n2⟩
  simp only at hp hl
  subst hp
  subst hl
  rfl

/-- Witness for C7: a dirty generator state and a fresh one, on sets
differing only in name, give the same records. -/
theorem C7_deterministic_witness :
    (STEPGenerator.generate_step_file ⟨5, [⟨1, .direction 0 0 1⟩]⟩
      ⟨[⟨1, 2, 3⟩], [], "A"⟩).entities =
    (STEPGenerator.generate_step_file ⟨1, []⟩
      ⟨[⟨1, 2, 3⟩], [], "B"⟩).entities :=
  C7_deterministic ⟨5, [⟨1, .direction 0 0 1⟩]⟩ ⟨1, []⟩
    ⟨[⟨1, 2, 3⟩], [], "A"⟩ ⟨[⟨1, 2, 3⟩], [], "B"⟩ rfl rfl

/-- C9: degenerate segments count toward the surface threshold: at least
3 segments, all of zero length, still give exactly one PLANE and one
BLOCK; the only DIRECTION record is the plane normal, and the point
records are the P set points, S segment starts, two per consumed (first
up-to-4) segment, and the 8 box corners. -/
theorem C9_degenerate_threshold (g : STEPGenerator) (b1 : B1Entity)
    (h3 : 3 ≤ b1.lines.length) (hdeg : ∀ l ∈ b1.lines, l.length = 0) :
    cnt isPlane (g.generate_step_file b1).entities = 1 ∧
    cnt isBlock (g.generate_step_file b1).entities = 1 ∧
    cnt isDir (g.generate_step_file b1).entities = 1 ∧
    cnt isCart (g.generate_step_file b1).entities =
      b1.points.length + b1.lines.length +
        (2 * (b1.lines.take 4).length + 8) := by
  obtain ⟨new, hph, hc, hd, -, -, hpl, hbl, -⟩ := generate_master g b1
  have hent : (g.generate_step_file b1).entities = new := by
    simpa using hph.1
  have hpos : posCount b1.lines = 0 := by
    unfold posCount
    have hnone : ∀ l ∈ b1.lines, ¬ (decide (0 < l.length) = true) := by
      intro l hl
      simp [hdeg l hl]
    rw [List.filter_eq_nil_iff.mpr hnone]
    rfl
  refine ⟨?_, ?_, ?_, ?_⟩
  · rw [hent, hpl, if_pos h3]
  · rw [hent, hbl, if_pos h3]
  · rw [hent, hd, hpos, if_pos h3]
  · rw [hent, hc, if_pos h3]

/-- Witness for C9 on three zero-length segments: one plane, one block,
one direction, and 17 cartesian points (3 starts + 6 surface points + 8
corners). -/
theorem C9_degenerate_threshold_witness :
    cnt isPlane (STEPGenerator.generate_step_file ⟨1, []⟩
      ⟨[], [⟨⟨0, 0, 0⟩, ⟨0, 0, 0⟩⟩, ⟨⟨1, 1, 1⟩, ⟨1, 1, 1⟩⟩,
            ⟨⟨2, 2, 2⟩, ⟨2, 2, 2⟩⟩], "B1"⟩).entities = 1 ∧
    cnt isBlock (STEPGenerator.generate_step_file ⟨1, []⟩
      ⟨[], [⟨⟨0, 0, 0⟩, ⟨0, 0, 0⟩⟩, ⟨⟨1, 1, 1⟩, ⟨1, 1, 1⟩⟩,
            ⟨⟨2, 2, 2⟩, ⟨2, 2, 2⟩⟩], "B1"⟩).entities = 1 ∧
    cnt isDir (STEPGenerator.generate_step_file ⟨1, []⟩
      ⟨[], [⟨⟨0, 0, 0⟩, ⟨0, 0, 0⟩⟩, ⟨⟨1, 1, 1⟩, ⟨1, 1, 1⟩⟩,
            ⟨⟨2, 2, 2⟩, ⟨2, 2, 2⟩⟩], "B1"⟩).entities = 1 ∧
    cnt isCart (STEPGenerator.generate_step_file ⟨1, []⟩
      ⟨[], [⟨⟨0, 0, 0⟩, ⟨0, 0, 0⟩⟩, ⟨⟨1, 1, 1⟩, ⟨1, 1, 1⟩⟩,
            ⟨⟨2, 2, 2⟩, ⟨2, 2, 2⟩⟩], "B1"⟩).entities = 17 := by
  have h := C9_degenerate_threshold ⟨1, []⟩
    ⟨[], [⟨⟨0, 0, 0⟩, ⟨0, 0, 0⟩⟩, ⟨⟨1, 1, 1⟩, ⟨1, 1, 1⟩⟩,
          ⟨⟨2, 2, 2⟩, ⟨2, 2, 2⟩⟩], "B1"⟩
    (by decide)
    (by
      intro l hl
      simp only [List.mem_cons, List.not_mem_nil, or_false] at hl
      rcases hl with rfl | rfl | rfl <;> exact length_eq_zero_of_eq rfl)
  simpa using h
